import Mathlib

set_option maxHeartbeats 1600000

namespace Darglint

/-- Line-number range attached to findings, `(begin, end)`. -/
abbrev LineRange := Nat × Nat

/-- The closed error taxonomy of `errors.py`, one constructor per error class;
`style n` stands for the style-violation classes routed through
`BaseDocstring.get_style_errors`, indexed by sub-kind.  Every class carries a
stable `error_code`, and codes are in bijection with kinds, so the ignore list
and the inline-suppression index are keyed directly by kind here. -/
inductive ErrorKind where
  | missingParameter
  | excessParameter
  | parameterTypeMismatch
  | parameterTypeMissing
  | missingReturn
  | excessReturn
  | returnTypeMismatch
  | missingYield
  | excessYield
  | missingRaise
  | excessRaise
  | excessVariable
  | style (subkind : Nat)
deriving DecidableEq

/-- Modelled from the spec: the documentation style selector
(`docstring.base.DocstringStyle`, not under src).  `run_checks` dispatches on
exactly these two styles. -/
inductive DocstringStyle where
  | google
  | sphinx
deriving DecidableEq

/-- Modelled from the spec: the ordered strictness levels of
`config.Strictness` (not under src): any-description, short-description,
full-description.  The checker only ever distinguishes `fullDescription`
from the lower levels. -/
inductive Strictness where
  | anyDescription
  | shortDescription
  | fullDescription
deriving DecidableEq

/-- Modelled from the spec: the value `get_types(RETURNS_SECTION)` hands back:
nothing, a single type string, or a list of return-type entries.  The checker
normalises this with `if not doc_type or isinstance(doc_type, list)`:
anything other than a non-empty string counts as "no single type". -/
inductive DocReturnType where
  | noType
  | single (t : String)
  | listOf (ts : List String)
deriving DecidableEq

/-- Modelled from the spec: the Documentation View (`BaseDocstring`, not under
src), restricted to exactly the accessors `IntegrityChecker` calls:
`get_items`/`get_types` per section, `get_section` presence booleans,
`get_noqas` (the inline-suppression index: error code to list of suppressed
item names, an empty list meaning "suppress every instance"), `ignore_all`,
`satisfies_strictness`, `get_style_errors`, `get_line_numbers` and
`get_line_numbers_for_value`. -/
structure BaseDocstring where
  argumentItems : Option (List String)
  argumentTypes : Option (List (Option String))
  raisesItems : Option (List String)
  variableItems : Option (List String)
  hasReturnsSection : Bool
  hasYieldsSection : Bool
  returnsTypes : DocReturnType
  noqas : List (ErrorKind × List String)
  ignoreAll : Bool
  satisfies_strictness : Strictness → Bool
  styleErrors : List (Nat × Option LineRange)
  sectionLines : String → Option LineRange
  valueLines : String → String → Option LineRange

/-- Modelled from the spec: the documentation-parser collaborator
(`Docstring.from_google` / `Docstring.from_sphinx`, not under src).  For one
raw docstring it gives, per style, either the parsed view or a parse fault. -/
structure DocSource where
  googleView : Except Unit BaseDocstring
  sphinxView : Except Unit BaseDocstring

/-- The slice of `function_description.FunctionDescription` that
`IntegrityChecker` reads.  `lineno` stands for `function.function.lineno`,
the source position used as the sort key of findings.  `raises` and
`variableNames` (the source's `variables` attribute; `variables` is reserved
in Lean) are sets in the source; they are carried as lists and used with
set semantics. -/
structure FunctionDescription where
  lineno : Nat
  argumentNames : List String
  argumentTypes : List (Option String)
  returnType : Option String
  hasReturn : Bool
  hasYield : Bool
  raises : List String
  variableNames : List String
  docstring : Option DocSource

/-- The `config.Configuration` fields the checker consumes. -/
structure Configuration where
  ignore : List ErrorKind
  message_template : Option String
  style : DocstringStyle
  strictness : Strictness

/-- One error instance as appended to `self.errors`: its kind, the owning
unit's line number (`function.lineno`, the sort key), and the contextual
fields the error classes store. -/
structure Finding where
  kind : ErrorKind
  functionLineno : Nat
  name : Option String
  expected : Option String
  actual : Option String
  lineNumbers : Option LineRange
deriving DecidableEq

/-- Shorthand constructor for findings. -/
def mkFinding (k : ErrorKind) (ln : Nat) (nm : Option String)
    (e a : Option String) (lr : Option LineRange) : Finding :=
  ⟨k, ln, nm, e, a, lr⟩

/-- Python `set(l)` built from a list, iterated in first-occurrence order
(the source iterates sets in unspecified order; only set membership matters
to the claims). -/
def pySet (l : List String) : List String := l.dedup

/-- Python set difference `a - b` on lists-as-sets. -/
def setDiff (a b : List String) : List String :=
  a.filter (fun x => !(b.contains x))

/-- One step of Python `dict` insertion: an existing key keeps its position
but takes the new value; a new key is appended. -/
def upsert (d : List (String × Option String)) (kv : String × Option String) :
    List (String × Option String) :=
  if d.any (fun p => p.1 == kv.1) then
    d.map (fun p => if p.1 == kv.1 then (p.1, kv.2) else p)
  else d ++ [kv]

/-- Python `dict(zip(ks, vs))`: pairs truncated to the shorter list, later
occurrences of a key overwriting its value. -/
def dictZip (ks : List String) (vs : List (Option String)) :
    List (String × Option String) :=
  (ks.zip vs).foldl upsert []

/-- Python `k in d` / `d[k]` on the association list built by `dictZip`. -/
def dictGet (d : List (String × Option String)) (k : String) :
    Option (Option String) :=
  (d.find? (fun p => p.1 == k)).map (fun p => p.2)

/-- Embeds `noqa_lookup = self.docstring.get_noqas()`: `getNoqa doc k` is
`noqa_lookup[k]` when `k in noqa_lookup`. -/
def getNoqa (doc : BaseDocstring) (k : ErrorKind) : Option (List String) :=
  (doc.noqas.find? (fun p => p.1 == k)).map (fun p => p.2)

/-- Embeds `error_code in noqa_lookup and name in noqa_lookup[error_code]`. -/
def perNameNoqa (doc : BaseDocstring) (k : ErrorKind) (n : String) : Bool :=
  match getNoqa doc k with
  | some ts => ts.contains n
  | none => false

/-- Embeds `IntegrityChecker._ignore_error`: true when the code is in the global
ignore list, or the inline-suppression index maps it to an empty target
list. -/
def _ignore_error (cfg : Configuration) (doc : BaseDocstring)
    (k : ErrorKind) : Bool :=
  decide (k ∈ cfg.ignore) ||
    (match getNoqa doc k with
     | some ts => ts.isEmpty
     | none => false)

/-- Embeds `IntegrityChecker._remove_ignored`: empty on full suppression, otherwise
the candidates minus the per-name suppression targets when an entry exists,
otherwise the candidates unchanged. -/
def _remove_ignored (cfg : Configuration) (doc : BaseDocstring)
    (missing : List String) (k : ErrorKind) : List String :=
  if _ignore_error cfg doc k then []
  else
    match getNoqa doc k with
    | none => missing
    | some ts => missing.filter (fun x => !(ts.contains x))

/-- Python `x or default` on optional line ranges (a present range is a
non-empty tuple, hence truthy). -/
def orDefault (x d : Option LineRange) : Option LineRange :=
  match x with
  | none => d
  | some v => some v

/-- The documented type of one argument name: `argument_types[name]` over
`dict(zip(get_items(ARGUMENTS), get_types(ARGUMENTS)))`, `None` when the
name is not documented. -/
def docArgType (doc : BaseDocstring) (n : String) : Option String :=
  (dictGet (dictZip (doc.argumentItems.getD []) (doc.argumentTypes.getD [])) n).join

/-- Embeds `IntegrityChecker._check_parameters`. -/
def _check_parameters (cfg : Configuration) (doc : BaseDocstring)
    (fn : FunctionDescription) : List Finding :=
  let docstring_arguments := pySet (doc.argumentItems.getD [])
  let actual_arguments := pySet fn.argumentNames
  let missing_in_doc :=
    _remove_ignored cfg doc (setDiff actual_arguments docstring_arguments)
      .missingParameter
  let dflt := doc.sectionLines "arguments-section"
  let missingF := missing_in_doc.map (fun m =>
    mkFinding .missingParameter fn.lineno (some m) none none dflt)
  let missing_in_function :=
    _remove_ignored cfg doc (setDiff docstring_arguments actual_arguments)
      .excessParameter
  let excessF := missing_in_function.map (fun m =>
    mkFinding .excessParameter fn.lineno (some m) none none
      (orDefault (doc.valueLines "arguments-section" m) dflt))
  missingF ++ excessF

/-- The documented-type column `doc_arg_types` of
`_check_parameter_types`, one entry per actual argument name. -/
def docArgTypesOf (doc : BaseDocstring) (names : List String) :
    List (Option String) :=
  names.map (fun nm => docArgType doc nm)

/-- The loop body of `_check_parameter_types`, over
`zip(argument_names, argument_types, doc_arg_types)`. -/
def ptmCore (doc : BaseDocstring) (ln : Nat) (names : List String)
    (types : List (Option String)) : List Finding :=
  (names.zip (types.zip (docArgTypesOf doc names))).filterMap (fun t =>
    match t with
    | (nm, some e, some a) =>
      if e = a ∨ perNameNoqa doc .parameterTypeMismatch nm = true then none
      else some (mkFinding .parameterTypeMismatch ln (some nm)
        (some e) (some a)
        (orDefault (doc.valueLines "ident" nm)
          (doc.sectionLines "arguments-section")))
    | _ => none)

/-- Embeds `IntegrityChecker._check_parameter_types`. -/
def _check_parameter_types (cfg : Configuration) (doc : BaseDocstring)
    (fn : FunctionDescription) : List Finding :=
  if _ignore_error cfg doc .parameterTypeMismatch then []
  else ptmCore doc fn.lineno fn.argumentNames fn.argumentTypes

/-- Embeds `IntegrityChecker._check_parameter_types_missing`. -/
def _check_parameter_types_missing (cfg : Configuration)
    (doc : BaseDocstring) (fn : FunctionDescription) : List Finding :=
  if _ignore_error cfg doc .parameterTypeMissing then []
  else
    (dictZip (doc.argumentItems.getD []) (doc.argumentTypes.getD [])).filterMap
      (fun p =>
        match p with
        | (nm, none) =>
          if perNameNoqa doc .parameterTypeMissing nm then none
          else some (mkFinding .parameterTypeMissing fn.lineno (some nm)
            none none
            (orDefault (doc.valueLines "ident" nm)
              (doc.sectionLines "arguments-section")))
        | _ => none)

/-- Embeds `IntegrityChecker._check_return`. -/
def _check_return (cfg : Configuration) (doc : BaseDocstring)
    (fn : FunctionDescription) : List Finding :=
  if fn.hasReturn && !doc.hasReturnsSection
      && !(_ignore_error cfg doc .missingReturn) then
    [mkFinding .missingReturn fn.lineno none none none none]
  else if doc.hasReturnsSection && !fn.hasReturn
      && !(_ignore_error cfg doc .excessReturn) then
    [mkFinding .excessReturn fn.lineno none none none
      (doc.sectionLines "returns-section")]
  else []

/-- Embeds `IntegrityChecker._check_yield`. -/
def _check_yield (cfg : Configuration) (doc : BaseDocstring)
    (fn : FunctionDescription) : List Finding :=
  if fn.hasYield && !doc.hasYieldsSection
      && !(_ignore_error cfg doc .missingYield) then
    [mkFinding .missingYield fn.lineno none none none none]
  else if doc.hasYieldsSection && !fn.hasYield
      && !(_ignore_error cfg doc .excessYield) then
    [mkFinding .excessYield fn.lineno none none none
      (doc.sectionLines "yields-section")]
  else []

/-- Embeds `if not doc_type or isinstance(doc_type, list): doc_type = None` of
`_check_return_type`. -/
def effectiveReturnType : DocReturnType → Option String
  | .noType => none
  | .single t => if t = "" then none else some t
  | .listOf _ => none

/-- Embeds `IntegrityChecker._check_return_type`. -/
def _check_return_type (cfg : Configuration) (doc : BaseDocstring)
    (fn : FunctionDescription) : List Finding :=
  if _ignore_error cfg doc .returnTypeMismatch then []
  else
    match fn.returnType, effectiveReturnType doc.returnsTypes with
    | some ft, some dt =>
      if ft ≠ dt then
        [mkFinding .returnTypeMismatch fn.lineno none (some ft) (some dt)
          (doc.sectionLines "returns-section")]
      else []
    | _, _ => []

/-- Embeds `IntegrityChecker._check_raises`. -/
def _check_raises (cfg : Configuration) (doc : BaseDocstring)
    (fn : FunctionDescription) : List Finding :=
  let docstring_raises := pySet (doc.raisesItems.getD [])
  let actual_raises := pySet fn.raises
  let missing_in_doc :=
    _remove_ignored cfg doc (setDiff actual_raises docstring_raises)
      .missingRaise
  let missingF := missing_in_doc.map (fun m =>
    mkFinding .missingRaise fn.lineno (some m) none none none)
  let missing_in_function :=
    _remove_ignored cfg doc (setDiff docstring_raises actual_raises)
      .excessRaise
  let dflt := doc.sectionLines "raises-section"
  let excessF := missing_in_function.map (fun m =>
    mkFinding .excessRaise fn.lineno (some m) none none
      (orDefault (doc.valueLines "raises-section" m) dflt))
  missingF ++ excessF

/-- Embeds `IntegrityChecker._check_variables`.  Note: it consults neither the
global ignore list nor the inline-suppression index. -/
def _check_variables (doc : BaseDocstring) (fn : FunctionDescription) :
    List Finding :=
  let described_variables := pySet (doc.variableItems.getD [])
  let actual_variables := pySet fn.variableNames
  let excess_in_doc := setDiff described_variables actual_variables
  let dflt := doc.sectionLines "variables-section"
  excess_in_doc.map (fun e =>
    mkFinding .excessVariable fn.lineno (some e) none none
      (orDefault (doc.valueLines "variables-section" e) dflt))

/-- Embeds `IntegrityChecker._check_style`: routes the parser's style findings into
the collection verbatim, with no suppression. -/
def _check_style (doc : BaseDocstring) (fn : FunctionDescription) :
    List Finding :=
  doc.styleErrors.map (fun p =>
    mkFinding (.style p.1) fn.lineno none none none p.2)

/-- The view the configured style parses a raw docstring to. -/
def styleView (s : DocstringStyle) (src : DocSource) :
    Except Unit BaseDocstring :=
  match s with
  | .google => src.googleView
  | .sphinx => src.sphinxView

/-- The battery call sequence of `run_checks` (source lines 122-129), in its
fixed order. -/
def battery (cfg : Configuration) (doc : BaseDocstring)
    (fn : FunctionDescription) : List Finding :=
  _check_parameters cfg doc fn
    ++ _check_parameter_types cfg doc fn
    ++ _check_parameter_types_missing cfg doc fn
    ++ _check_return cfg doc fn
    ++ _check_return_type cfg doc fn
    ++ _check_yield cfg doc fn
    ++ _check_raises cfg doc fn
    ++ _check_style doc fn

/-- Embeds `IntegrityChecker.run_checks`: parse per style (under Sphinx the
variables check runs right after parsing), then the strictness and
`ignore_all` short-circuits, then the battery in its fixed order.  The
result is the list of findings this run appends to `self.errors`, or the
fault the docstring parser raised. -/
def run_checks (cfg : Configuration) (fn : FunctionDescription) :
    Except Unit (List Finding) :=
  match fn.docstring with
  | none => .ok []
  | some src =>
    match styleView cfg.style src with
    | .error e => .error e
    | .ok doc =>
      let pre :=
        match cfg.style with
        | .sphinx => _check_variables doc fn
        | .google => []
      if !(cfg.strictness == Strictness.fullDescription)
          && doc.satisfies_strictness cfg.strictness then .ok pre
      else if doc.ignoreAll then .ok pre
      else .ok (pre ++ battery cfg doc fn)

/-- What one submitted run contributes to `self.errors`.  A raised exception
is captured inside the `concurrent.futures` future; no caller ever retrieves
a future's result, so a faulting run contributes nothing. -/
def runOutcome (cfg : Configuration) (fn : FunctionDescription) :
    List Finding :=
  match run_checks cfg fn with
  | .ok fs => fs
  | .error _ => []

/-- Embeds `IntegrityChecker` state: the shared error collection, the
configuration, the stored (and, in the source, never again read)
`raise_errors` flag, and the tasks submitted to the thread pool.  The
`_sorted` dirty flag is omitted: it is read only by `_sort`, which no code
path invokes. -/
structure IntegrityChecker where
  errors : List Finding
  config : Configuration
  raise_errors : Bool
  scheduled : List FunctionDescription

/-- Embeds `IntegrityChecker.__init__`. -/
def initChecker (cfg : Configuration) (re : Bool) : IntegrityChecker :=
  ⟨[], cfg, re, []⟩

/-- Embeds `IntegrityChecker.schedule`: submit a run unless the unit has no
docstring. -/
def schedule (c : IntegrityChecker) (function : FunctionDescription) :
    IntegrityChecker :=
  match function.docstring with
  | none => c
  | some _ => ⟨c.errors, c.config, c.raise_errors, c.scheduled ++ [function]⟩

/-- Drain the thread pool: every submitted run executes and appends its
findings; faulting runs contribute nothing (their exception stays in the
future). -/
def runScheduled (c : IntegrityChecker) : IntegrityChecker :=
  ⟨c.errors ++ (c.scheduled.map (runOutcome c.config)).flatten,
    c.config, c.raise_errors, []⟩

/-- The body of `IntegrityChecker._sort`: a stable sort of the findings by
the owning unit's line number (stable insertion sort, matching Python
`list.sort`'s stability).  `get_error_report` never invokes it. -/
def insertByLineno (f : Finding) : List Finding → List Finding
  | [] => [f]
  | g :: gs =>
    if f.functionLineno ≤ g.functionLineno then f :: g :: gs
    else g :: insertByLineno f gs

/-- Stable sort by owning unit's line number, the sort `_sort` would
perform. -/
def sortErrorsByLineno : List Finding → List Finding
  | [] => []
  | f :: fs => insertByLineno f (sortErrorsByLineno fs)

/-- Modelled from the spec: the report renderer (`error_report.ErrorReport`,
not under src).  Per spec section 4.4 it receives the finalized collection
and renders it in the order given; it performs no sorting of its own. -/
structure ErrorReport where
  errors : List Finding
  filename : String
  verbosity : Nat
  message_template : Option String
deriving DecidableEq

/-- Embeds `IntegrityChecker.get_error_report`: shut the executor down (waiting for
outstanding runs, re-raising nothing) and hand the accumulated errors to the
renderer as they stand — no call to `_sort`. -/
def get_error_report (c : IntegrityChecker) (verbosity : Nat)
    (filename : String) (message_template : Option String) : ErrorReport :=
  let c2 := runScheduled c
  ⟨c2.errors, filename, verbosity,
    match message_template with
    | some t => some t
    | none => c.config.message_template⟩

end Darglint

namespace Darglint

/-- A documentation view with everything empty, used as a base for concrete
inputs. -/
def emptyDoc : BaseDocstring :=
  { argumentItems := none, argumentTypes := none, raisesItems := none,
    variableItems := none, hasReturnsSection := false,
    hasYieldsSection := false, returnsTypes := .noType, noqas := [],
    ignoreAll := false, satisfies_strictness := fun _ => false,
    styleErrors := [], sectionLines := fun _ => none,
    valueLines := fun _ _ => none }

/-- A unit with everything empty, used as a base for concrete inputs. -/
def emptyFn : FunctionDescription :=
  { lineno := 1, argumentNames := [], argumentTypes := [],
    returnType := none, hasReturn := false, hasYield := false,
    raises := [], variableNames := [], docstring := none }

/-- A parse source whose both views succeed with the same view. -/
def okSource (d : BaseDocstring) : DocSource :=
  { googleView := .ok d, sphinxView := .ok d }

/-- The default configuration of `IntegrityChecker.__init__`. -/
def defaultConfig : Configuration :=
  { ignore := [], message_template := none, style := .google,
    strictness := .fullDescription }

end Darglint

namespace Darglint

@[simp] theorem mkFinding_kind (k : ErrorKind) (ln : Nat) (nm e a : Option String)
    (lr : Option LineRange) : (mkFinding k ln nm e a lr).kind = k := rfl

@[simp] theorem mkFinding_name (k : ErrorKind) (ln : Nat) (nm e a : Option String)
    (lr : Option LineRange) : (mkFinding k ln nm e a lr).name = nm := rfl

@[simp] theorem mkFinding_expected (k : ErrorKind) (ln : Nat) (nm e a : Option String)
    (lr : Option LineRange) : (mkFinding k ln nm e a lr).expected = e := rfl

@[simp] theorem mkFinding_actual (k : ErrorKind) (ln : Nat) (nm e a : Option String)
    (lr : Option LineRange) : (mkFinding k ln nm e a lr).actual = a := rfl

@[simp] theorem mkFinding_lineno (k : ErrorKind) (ln : Nat) (nm e a : Option String)
    (lr : Option LineRange) : (mkFinding k ln nm e a lr).functionLineno = ln := rfl

/-- A code on the global ignore list is fully suppressed. -/
theorem ignore_of_mem (cfg : Configuration) (doc : BaseDocstring) (k : ErrorKind)
    (hk : k ∈ cfg.ignore) : _ignore_error cfg doc k = true := by
  simp [_ignore_error, hk]

/-- Membership in `_remove_ignored`: survivors are exactly the candidates of a
kind that is neither fully suppressed nor per-name suppressed for them. -/
theorem mem_remove_ignored (cfg : Configuration) (doc : BaseDocstring)
    (l : List String) (k : ErrorKind) (x : String) :
    x ∈ _remove_ignored cfg doc l k ↔
      x ∈ l ∧ _ignore_error cfg doc k = false ∧ perNameNoqa doc k x = false := by
  unfold _remove_ignored
  by_cases hig : _ignore_error cfg doc k
  · simp [hig]
  · rw [Bool.not_eq_true] at hig
    cases hno : getNoqa doc k with
    | none => simp [hig, hno, perNameNoqa]
    | some ts => simp [hig, hno, perNameNoqa, List.mem_filter]

/-- Nodup is preserved by `_remove_ignored`. -/
theorem nodup_remove_ignored (cfg : Configuration) (doc : BaseDocstring)
    (l : List String) (k : ErrorKind) (h : l.Nodup) :
    (_remove_ignored cfg doc l k).Nodup := by
  unfold _remove_ignored
  by_cases hig : _ignore_error cfg doc k
  · simp [hig]
  · cases hno : getNoqa doc k with
    | none => simpa [hig, hno] using h
    | some ts =>
      simp only [hig, if_false, hno]
      exact h.filter _

/-- Applying `setDiff` to a deduplicated list keeps it duplicate-free. -/
theorem nodup_setDiff_pySet (a b : List String) :
    (setDiff (pySet a) b).Nodup :=
  (List.nodup_dedup a).filter _

/-- Membership in a set difference. -/
theorem mem_setDiff (a b : List String) (x : String) :
    x ∈ setDiff a b ↔ x ∈ a ∧ x ∉ b := by
  simp [setDiff, List.mem_filter]

/-- Membership in the Python set of a list. -/
theorem mem_pySet (l : List String) (x : String) : x ∈ pySet l ↔ x ∈ l :=
  List.mem_dedup

/-- Every parameter-presence finding survives full suppression of its kind. -/
theorem mem_check_parameters (cfg : Configuration) (doc : BaseDocstring)
    (fn : FunctionDescription) (f : Finding)
    (h : f ∈ _check_parameters cfg doc fn) :
    (f.kind = .missingParameter ∨ f.kind = .excessParameter) ∧
      _ignore_error cfg doc f.kind = false := by
  simp only [_check_parameters, List.mem_append, List.mem_map] at h
  rcases h with ⟨m, hm, rfl⟩ | ⟨m, hm, rfl⟩
  · rw [mem_remove_ignored] at hm
    exact ⟨Or.inl rfl, by simpa using hm.2.1⟩
  · rw [mem_remove_ignored] at hm
    exact ⟨Or.inr rfl, by simpa using hm.2.1⟩

/-- Every raises finding survives full suppression of its kind. -/
theorem mem_check_raises (cfg : Configuration) (doc : BaseDocstring)
    (fn : FunctionDescription) (f : Finding)
    (h : f ∈ _check_raises cfg doc fn) :
    (f.kind = .missingRaise ∨ f.kind = .excessRaise) ∧
      _ignore_error cfg doc f.kind = false := by
  simp only [_check_raises, List.mem_append, List.mem_map] at h
  rcases h with ⟨m, hm, rfl⟩ | ⟨m, hm, rfl⟩
  · rw [mem_remove_ignored] at hm
    exact ⟨Or.inl rfl, by simpa using hm.2.1⟩
  · rw [mem_remove_ignored] at hm
    exact ⟨Or.inr rfl, by simpa using hm.2.1⟩

/-- Every parameter-type-mismatch finding survives full suppression. -/
theorem mem_check_parameter_types (cfg : Configuration) (doc : BaseDocstring)
    (fn : FunctionDescription) (f : Finding)
    (h : f ∈ _check_parameter_types cfg doc fn) :
    f.kind = .parameterTypeMismatch ∧ _ignore_error cfg doc f.kind = false := by
  unfold _check_parameter_types at h
  split at h
  · simp at h
  · next hig =>
    rw [Bool.not_eq_true] at hig
    simp only [ptmCore, List.mem_filterMap] at h
    obtain ⟨t, _, ht⟩ := h
    rcases t with ⟨nm, tc, td⟩
    cases tc with
    | none => simp at ht
    | some e =>
      cases td with
      | none => simp at ht
      | some a =>
        simp only at ht
        split at ht
        · simp at ht
        · cases ht
          exact ⟨rfl, hig⟩

/-- Every parameter-type-missing finding survives full suppression. -/
theorem mem_check_parameter_types_missing (cfg : Configuration)
    (doc : BaseDocstring) (fn : FunctionDescription) (f : Finding)
    (h : f ∈ _check_parameter_types_missing cfg doc fn) :
    f.kind = .parameterTypeMissing ∧ _ignore_error cfg doc f.kind = false := by
  unfold _check_parameter_types_missing at h
  split at h
  · simp at h
  · next hig =>
    rw [Bool.not_eq_true] at hig
    simp only [List.mem_filterMap] at h
    obtain ⟨t, _, ht⟩ := h
    rcases t with ⟨nm, td⟩
    cases td with
    | none =>
      simp only at ht
      split at ht
      · simp at ht
      · cases ht
        exact ⟨rfl, hig⟩
    | some a => simp at ht

/-- Every return-presence finding survives full suppression of its kind. -/
theorem mem_check_return (cfg : Configuration) (doc : BaseDocstring)
    (fn : FunctionDescription) (f : Finding)
    (h : f ∈ _check_return cfg doc fn) :
    (f.kind = .missingReturn ∨ f.kind = .excessReturn) ∧
      _ignore_error cfg doc f.kind = false := by
  unfold _check_return at h
  split at h
  · next hc =>
    simp only [List.mem_singleton] at h
    subst h
    simp only [Bool.and_eq_true, Bool.not_eq_true'] at hc
    exact ⟨Or.inl rfl, by simpa using hc.2⟩
  · split at h
    · next hc =>
      simp only [List.mem_singleton] at h
      subst h
      simp only [Bool.and_eq_true, Bool.not_eq_true'] at hc
      exact ⟨Or.inr rfl, by simpa using hc.2⟩
    · simp at h

/-- Every yield-presence finding survives full suppression of its kind. -/
theorem mem_check_yield (cfg : Configuration) (doc : BaseDocstring)
    (fn : FunctionDescription) (f : Finding)
    (h : f ∈ _check_yield cfg doc fn) :
    (f.kind = .missingYield ∨ f.kind = .excessYield) ∧
      _ignore_error cfg doc f.kind = false := by
  unfold _check_yield at h
  split at h
  · next hc =>
    simp only [List.mem_singleton] at h
    subst h
    simp only [Bool.and_eq_true, Bool.not_eq_true'] at hc
    exact ⟨Or.inl rfl, by simpa using hc.2⟩
  · split at h
    · next hc =>
      simp only [List.mem_singleton] at h
      subst h
      simp only [Bool.and_eq_true, Bool.not_eq_true'] at hc
      exact ⟨Or.inr rfl, by simpa using hc.2⟩
    · simp at h

/-- Every return-type finding survives full suppression of its kind. -/
theorem mem_check_return_type (cfg : Configuration) (doc : BaseDocstring)
    (fn : FunctionDescription) (f : Finding)
    (h : f ∈ _check_return_type cfg doc fn) :
    f.kind = .returnTypeMismatch ∧ _ignore_error cfg doc f.kind = false := by
  unfold _check_return_type at h
  split at h
  · simp at h
  · next hig =>
    rw [Bool.not_eq_true] at hig
    split at h
    · split at h
      · simp only [List.mem_singleton] at h
        subst h
        exact ⟨rfl, hig⟩
      · simp at h
    · simp at h

/-- The variables check only emits ExcessVariable findings. -/
theorem mem_check_variables (doc : BaseDocstring) (fn : FunctionDescription)
    (f : Finding) (h : f ∈ _check_variables doc fn) :
    f.kind = .excessVariable := by
  simp only [_check_variables, List.mem_map] at h
  obtain ⟨m, _, rfl⟩ := h
  rfl

/-- The style pass-through only emits style findings. -/
theorem mem_check_style (doc : BaseDocstring) (fn : FunctionDescription)
    (f : Finding) (h : f ∈ _check_style doc fn) :
    ∃ n, f.kind = .style n := by
  simp only [_check_style, List.mem_map] at h
  obtain ⟨m, _, rfl⟩ := h
  exact ⟨m.1, rfl⟩

end Darglint

namespace Darglint

/-- Every battery finding is either of a kind the run checked suppression
for (and found unsuppressed), or a style pass-through finding. -/
theorem mem_battery (cfg : Configuration) (doc : BaseDocstring)
    (fn : FunctionDescription) (f : Finding) (h : f ∈ battery cfg doc fn) :
    _ignore_error cfg doc f.kind = false ∨ ∃ n, f.kind = .style n := by
  simp only [battery, List.mem_append] at h
  rcases h with ((((((h | h) | h) | h) | h) | h) | h) | h
  · exact Or.inl (mem_check_parameters cfg doc fn f h).2
  · exact Or.inl (mem_check_parameter_types cfg doc fn f h).2
  · exact Or.inl (mem_check_parameter_types_missing cfg doc fn f h).2
  · exact Or.inl (mem_check_return cfg doc fn f h).2
  · exact Or.inl (mem_check_return_type cfg doc fn f h).2
  · exact Or.inl (mem_check_yield cfg doc fn f h).2
  · exact Or.inl (mem_check_raises cfg doc fn f h).2
  · exact Or.inr (mem_check_style doc fn f h)

/-- Decomposition of a run's contribution: every finding either comes from
the pre-short-circuit Sphinx variables check, or from the battery of a
successfully parsed view. -/
theorem mem_runOutcome (cfg : Configuration) (fn : FunctionDescription)
    (f : Finding) (h : f ∈ runOutcome cfg fn) :
    f.kind = .excessVariable ∨
      ∃ src doc, fn.docstring = some src ∧ styleView cfg.style src = .ok doc ∧
        f ∈ battery cfg doc fn := by
  cases hd : fn.docstring with
  | none => simp [runOutcome, run_checks, hd] at h
  | some src =>
    cases hv : styleView cfg.style src with
    | error e => simp [runOutcome, run_checks, hd, hv] at h
    | ok doc =>
      simp only [runOutcome, run_checks, hd, hv] at h
      have hpre : ∀ g ∈ (match cfg.style with
          | DocstringStyle.sphinx => _check_variables doc fn
          | DocstringStyle.google => []),
          Finding.kind g = ErrorKind.excessVariable := by
        cases cfg.style with
        | sphinx => exact fun g hg => mem_check_variables doc fn g hg
        | google => intro g hg; simp at hg
      split at h
      · next fs heq =>
        split at heq
        · cases heq
          exact Or.inl (hpre f h)
        · split at heq
          · cases heq
            exact Or.inl (hpre f h)
          · cases heq
            rw [List.mem_append] at h
            rcases h with h | h
            · exact Or.inl (hpre f h)
            · exact Or.inr ⟨src, doc, rfl, hv, h⟩
      · next a heq =>
        exfalso
        split at heq
        · cases heq
        · split at heq
          · cases heq
          · cases heq

end Darglint

namespace Darglint

/-- Sphinx configuration that globally ignores ExcessVariable. -/
def cfgC1 : Configuration :=
  { defaultConfig with style := .sphinx, ignore := [.excessVariable] }

/-- A view documenting a variable `v` that the unit does not define. -/
def docC1 : BaseDocstring := { emptyDoc with variableItems := some ["v"] }

/-- A documented unit whose Sphinx view is `docC1`. -/
def fnC1 : FunctionDescription :=
  { emptyFn with docstring := some (okSource docC1) }

/-- Claim C1 counterexample: with `ExcessVariable` on the configuration's
global ignore list, a Sphinx run still appends an ExcessVariable finding,
because `_check_variables` never consults `_ignore_error`. -/
theorem global_ignore_excess_variable_cx :
    ErrorKind.excessVariable ∈ cfgC1.ignore ∧
      mkFinding .excessVariable 1 (some "v") none none none
        ∈ runOutcome cfgC1 fnC1 := by
  decide

/-- Claim C1 (amended): for every error code on the global ignore list, no
finding of that code is ever appended by a run, for every kind except
ExcessVariable and the style pass-through kinds, whose checks do not consult
the suppression resolver. -/
theorem global_ignore_respected_outside_variables_and_style
    (cfg : Configuration) (fn : FunctionDescription) (k : ErrorKind)
    (hk : k ∈ cfg.ignore) :
    ∀ f ∈ runOutcome cfg fn, f.kind = k →
      k = .excessVariable ∨ ∃ n, k = .style n := by
  intro f hf hfk
  rcases mem_runOutcome cfg fn f hf with hkind | ⟨src, doc, _, _, hb⟩
  · rw [← hfk]
    exact Or.inl hkind
  · rcases mem_battery cfg doc fn f hb with hig | ⟨n, hstyle⟩
    · exfalso
      rw [hfk, ignore_of_mem cfg doc k hk] at hig
      simp at hig
    · rw [← hfk]
      exact Or.inr ⟨n, hstyle⟩

/-- Configuration ignoring MissingParameter globally. -/
def cfgW1 : Configuration :=
  { defaultConfig with ignore := [.missingParameter] }

/-- A documented unit with an undocumented parameter `a`. -/
def fnW1 : FunctionDescription :=
  { emptyFn with
    argumentNames := ["a"],
    argumentTypes := [none],
    docstring := some (okSource emptyDoc) }

/-- Witness for the amended claim C1 at a concrete input. -/
theorem global_ignore_respected_witness :
    ErrorKind.missingParameter ∈ cfgW1.ignore ∧
      (∀ f ∈ runOutcome cfgW1 fnW1, f.kind = ErrorKind.missingParameter →
        ErrorKind.missingParameter = ErrorKind.excessVariable ∨
          ∃ n, ErrorKind.missingParameter = ErrorKind.style n) :=
  ⟨by decide,
    global_ignore_respected_outside_variables_and_style cfgW1 fnW1
      .missingParameter (by decide)⟩

/-- Default Sphinx configuration. -/
def cfgC2 : Configuration := { defaultConfig with style := .sphinx }

/-- A view with the unit-level ignore-all flag set and an excess variable. -/
def docC2 : BaseDocstring :=
  { emptyDoc with variableItems := some ["v"], ignoreAll := true }

/-- A documented unit whose Sphinx view is `docC2`. -/
def fnC2 : FunctionDescription :=
  { emptyFn with docstring := some (okSource docC2) }

/-- Claim C2 counterexample: a unit whose view sets the ignore-all flag
still gets an ExcessVariable finding under the Sphinx style, because the
variables check runs before the short-circuit. -/
theorem ignore_all_sphinx_variables_cx :
    docC2.ignoreAll = true ∧
      mkFinding .excessVariable 1 (some "v") none none none
        ∈ runOutcome cfgC2 fnC2 := by
  decide

/-- Claim C2 (amended): under the ignore-all or satisfied-strictness
short-circuit, a run appends no battery findings; only the Sphinx variables
check, which runs before the short-circuit, can still contribute findings
(none under the Google style). -/
theorem short_circuit_keeps_only_variable_findings
    (cfg : Configuration) (fn : FunctionDescription) (src : DocSource)
    (doc : BaseDocstring)
    (hd : fn.docstring = some src)
    (hv : styleView cfg.style src = .ok doc)
    (hsc : doc.ignoreAll = true ∨
      (cfg.strictness ≠ Strictness.fullDescription ∧
        doc.satisfies_strictness cfg.strictness = true)) :
    run_checks cfg fn = .ok (match cfg.style with
      | .sphinx => _check_variables doc fn
      | .google => []) := by
  simp only [run_checks, hd, hv]
  rcases hsc with hia | ⟨hs1, hs2⟩
  · by_cases hb : (!(cfg.strictness == Strictness.fullDescription)
        && doc.satisfies_strictness cfg.strictness) = true
    · simp [hb]
    · rw [Bool.not_eq_true] at hb
      simp [hb, hia]
  · have hb : (!(cfg.strictness == Strictness.fullDescription)
        && doc.satisfies_strictness cfg.strictness) = true := by
      simp [hs2, hs1]
    simp [hb]

/-- Google configuration at the lowest strictness level. -/
def cfgW2 : Configuration :=
  { defaultConfig with strictness := .anyDescription }

/-- A view that satisfies every strictness level and documents a parameter
set disjoint from the unit's. -/
def docW2 : BaseDocstring :=
  { emptyDoc with
    argumentItems := some ["q"],
    satisfies_strictness := fun _ => true }

/-- A documented unit with one parameter, documented as a different one. -/
def fnW2 : FunctionDescription :=
  { emptyFn with
    argumentNames := ["a"],
    argumentTypes := [none],
    docstring := some (okSource docW2) }

/-- Witness for the amended claim C2 at a concrete input: the satisfied
strictness level short-circuits the run to zero findings although the
parameter sets mismatch. -/
theorem short_circuit_keeps_only_variable_findings_witness :
    fnW2.docstring = some (okSource docW2) ∧
      styleView cfgW2.style (okSource docW2) = .ok docW2 ∧
      (cfgW2.strictness ≠ Strictness.fullDescription ∧
        docW2.satisfies_strictness cfgW2.strictness = true) ∧
      run_checks cfgW2 fnW2 = .ok (match cfgW2.style with
        | .sphinx => _check_variables docW2 fnW2
        | .google => []) :=
  ⟨rfl, rfl, ⟨by decide, rfl⟩,
    short_circuit_keeps_only_variable_findings cfgW2 fnW2 (okSource docW2)
      docW2 rfl rfl (Or.inr ⟨by decide, rfl⟩)⟩

end Darglint

namespace Darglint

/-- Filtering an empty candidate set yields the empty set. -/
theorem remove_ignored_nil (cfg : Configuration) (doc : BaseDocstring)
    (k : ErrorKind) : _remove_ignored cfg doc [] k = [] := by
  unfold _remove_ignored
  split
  · rfl
  · cases getNoqa doc k <;> rfl

/-- Claim C3: the suppression resolver contract.  Full suppression holds
exactly on the global ignore list or an empty-target suppression entry;
filtering yields nothing under full suppression, the candidates unchanged
without an entry, and the candidates minus the target set otherwise. -/
theorem suppression_resolver_contract (cfg : Configuration)
    (doc : BaseDocstring) (k : ErrorKind) (missing : List String) :
    (_ignore_error cfg doc k = true ↔
      k ∈ cfg.ignore ∨ getNoqa doc k = some []) ∧
    (_ignore_error cfg doc k = true →
      _remove_ignored cfg doc missing k = []) ∧
    (_ignore_error cfg doc k = false → getNoqa doc k = none →
      _remove_ignored cfg doc missing k = missing) ∧
    (∀ ts, _ignore_error cfg doc k = false → getNoqa doc k = some ts →
      ts ≠ [] →
      ∀ x, x ∈ _remove_ignored cfg doc missing k ↔
        x ∈ missing ∧ x ∉ ts) := by
  refine ⟨?_, ?_, ?_, ?_⟩
  · unfold _ignore_error
    cases hno : getNoqa doc k with
    | none => simp [hno]
    | some ts => simp [hno, List.isEmpty_iff]
  · intro h
    simp [_remove_ignored, h]
  · intro h1 h2
    simp [_remove_ignored, h1, h2]
  · intro ts h1 h2 _ x
    simp [_remove_ignored, h1, h2, List.mem_filter]

/-- A configuration/view pair exercising every clause of the resolver
contract: one fully ignored code, one empty-target entry, one non-empty
entry. -/
def docC3 : BaseDocstring :=
  { emptyDoc with noqas := [(.missingRaise, []), (.missingParameter, ["a"])] }

/-- Witness for claim C3 at a concrete input. -/
theorem suppression_resolver_contract_witness :
    (_ignore_error defaultConfig docC3 .missingParameter = true ↔
      ErrorKind.missingParameter ∈ defaultConfig.ignore ∨
        getNoqa docC3 .missingParameter = some []) ∧
    (_ignore_error defaultConfig docC3 .missingParameter = true →
      _remove_ignored defaultConfig docC3 ["a", "b"] .missingParameter = []) ∧
    (_ignore_error defaultConfig docC3 .missingParameter = false →
      getNoqa docC3 .missingParameter = none →
      _remove_ignored defaultConfig docC3 ["a", "b"] .missingParameter
        = ["a", "b"]) ∧
    (∀ ts, _ignore_error defaultConfig docC3 .missingParameter = false →
      getNoqa docC3 .missingParameter = some ts → ts ≠ [] →
      ∀ x, x ∈ _remove_ignored defaultConfig docC3 ["a", "b"]
          .missingParameter ↔ x ∈ ["a", "b"] ∧ x ∉ ts) :=
  suppression_resolver_contract defaultConfig docC3 .missingParameter
    ["a", "b"]

end Darglint

namespace Darglint

/-- Counting findings produced by mapping a finding constructor over a
duplicate-free list of names: one finding per name present. -/
theorem countP_map_name (M : List String) (hnd : M.Nodup) (n : String)
    (g : String → Finding) (k : ErrorKind)
    (hk : ∀ m, (g m).kind = k) (hn : ∀ m, (g m).name = some m) :
    (M.map g).countP (fun f => f.kind == k && f.name == some n)
      = if n ∈ M then 1 else 0 := by
  rw [List.countP_map]
  have hc : ∀ m ∈ M,
      ((fun f => f.kind == k && f.name == some n) ∘ g) m = true ↔
        (m == n) = true := by
    intro m _
    simp [hk m, hn m]
  rw [List.countP_congr hc]
  by_cases hmem : n ∈ M
  · rw [if_pos hmem]
    have := List.count_eq_one_of_mem hnd hmem
    simpa [List.count_eq_countP, eq_comm] using this
  · rw [if_neg hmem]
    have := List.count_eq_zero.mpr hmem
    simpa [List.count_eq_countP, eq_comm] using this

/-- Mapped findings of a different kind contribute nothing to the count. -/
theorem countP_map_other_kind (M : List String) (n : String)
    (g : String → Finding) (k k' : ErrorKind)
    (hk : ∀ m, (g m).kind = k') (hne : k' ≠ k) :
    (M.map g).countP (fun f => f.kind == k && f.name == some n) = 0 := by
  rw [List.countP_map]
  apply List.countP_eq_zero.mpr
  intro m _
  simp [hk m, hne]

/-- Claim C4: the parameter presence check appends exactly one
MissingParameter finding per actual-but-undocumented name surviving
suppression, exactly one ExcessParameter finding per documented-but-absent
name surviving suppression, and nothing when the two name sets agree. -/
theorem parameter_presence_check_counts (cfg : Configuration)
    (doc : BaseDocstring) (fn : FunctionDescription) (n : String) :
    ((_check_parameters cfg doc fn).countP
        (fun f => f.kind == ErrorKind.missingParameter && f.name == some n)
      = if n ∈ fn.argumentNames ∧ n ∉ doc.argumentItems.getD [] ∧
            _ignore_error cfg doc .missingParameter = false ∧
            perNameNoqa doc .missingParameter n = false
        then 1 else 0) ∧
    ((_check_parameters cfg doc fn).countP
        (fun f => f.kind == ErrorKind.excessParameter && f.name == some n)
      = if n ∈ doc.argumentItems.getD [] ∧ n ∉ fn.argumentNames ∧
            _ignore_error cfg doc .excessParameter = false ∧
            perNameNoqa doc .excessParameter n = false
        then 1 else 0) ∧
    ((∀ x, x ∈ fn.argumentNames ↔ x ∈ doc.argumentItems.getD []) →
      _check_parameters cfg doc fn = []) := by
  have hMnd : (_remove_ignored cfg doc
      (setDiff (pySet fn.argumentNames) (pySet (doc.argumentItems.getD [])))
      .missingParameter).Nodup :=
    nodup_remove_ignored cfg doc _ _ (nodup_setDiff_pySet _ _)
  have hEnd : (_remove_ignored cfg doc
      (setDiff (pySet (doc.argumentItems.getD [])) (pySet fn.argumentNames))
      .excessParameter).Nodup :=
    nodup_remove_ignored cfg doc _ _ (nodup_setDiff_pySet _ _)
  have hMmem : ∀ x, x ∈ _remove_ignored cfg doc
      (setDiff (pySet fn.argumentNames) (pySet (doc.argumentItems.getD [])))
      .missingParameter ↔
        x ∈ fn.argumentNames ∧ x ∉ doc.argumentItems.getD [] ∧
          _ignore_error cfg doc .missingParameter = false ∧
          perNameNoqa doc .missingParameter x = false := by
    intro x
    rw [mem_remove_ignored, mem_setDiff, mem_pySet, mem_pySet]
    tauto
  have hEmem : ∀ x, x ∈ _remove_ignored cfg doc
      (setDiff (pySet (doc.argumentItems.getD [])) (pySet fn.argumentNames))
      .excessParameter ↔
        x ∈ doc.argumentItems.getD [] ∧ x ∉ fn.argumentNames ∧
          _ignore_error cfg doc .excessParameter = false ∧
          perNameNoqa doc .excessParameter x = false := by
    intro x
    rw [mem_remove_ignored, mem_setDiff, mem_pySet, mem_pySet]
    tauto
  refine ⟨?_, ?_, ?_⟩
  · simp only [_check_parameters, List.countP_append]
    rw [countP_map_name _ hMnd n _ .missingParameter
        (fun m => rfl) (fun m => rfl),
      countP_map_other_kind _ n _ .missingParameter .excessParameter
        (fun m => rfl) (by decide)]
    rw [Nat.add_zero]
    by_cases hc : n ∈ fn.argumentNames ∧ n ∉ doc.argumentItems.getD [] ∧
        _ignore_error cfg doc .missingParameter = false ∧
        perNameNoqa doc .missingParameter n = false
    · rw [if_pos ((hMmem n).mpr hc), if_pos hc]
    · rw [if_neg (fun hm => hc ((hMmem n).mp hm)), if_neg hc]
  · simp only [_check_parameters, List.countP_append]
    rw [countP_map_other_kind _ n _ .excessParameter .missingParameter
        (fun m => rfl) (by decide),
      countP_map_name _ hEnd n _ .excessParameter
        (fun m => rfl) (fun m => rfl)]
    rw [Nat.zero_add]
    by_cases hc : n ∈ doc.argumentItems.getD [] ∧ n ∉ fn.argumentNames ∧
        _ignore_error cfg doc .excessParameter = false ∧
        perNameNoqa doc .excessParameter n = false
    · rw [if_pos ((hEmem n).mpr hc), if_pos hc]
    · rw [if_neg (fun hm => hc ((hEmem n).mp hm)), if_neg hc]
  · intro hAD
    have h1 : setDiff (pySet fn.argumentNames)
        (pySet (doc.argumentItems.getD [])) = [] := by
      apply List.filter_eq_nil_iff.mpr
      intro a ha
      rw [mem_pySet] at ha
      simp [mem_pySet, (hAD a).mp ha]
    have h2 : setDiff (pySet (doc.argumentItems.getD []))
        (pySet fn.argumentNames) = [] := by
      apply List.filter_eq_nil_iff.mpr
      intro a ha
      rw [mem_pySet] at ha
      simp [mem_pySet, (hAD a).mpr ha]
    simp only [_check_parameters, h1, h2, remove_ignored_nil, List.map_nil,
      List.append_nil]

end Darglint

namespace Darglint

/-- View for the claim C4 scenario: nothing documented, missing-parameter
suppressed for `a` only. -/
def docC4 : BaseDocstring :=
  { emptyDoc with noqas := [(.missingParameter, ["a"])] }

/-- Unit for the claim C4 scenario: actual parameters `a` and `b`. -/
def fnC4 : FunctionDescription :=
  { emptyFn with
    argumentNames := ["a", "b"],
    argumentTypes := [none, none],
    docstring := some (okSource docC4) }

/-- Witness for claim C4 at the scenario from the claim (checked for the
surviving name `b`). -/
theorem parameter_presence_check_counts_witness :
    ((_check_parameters defaultConfig docC4 fnC4).countP
        (fun f => f.kind == ErrorKind.missingParameter && f.name == some "b")
      = if "b" ∈ fnC4.argumentNames ∧
            "b" ∉ docC4.argumentItems.getD [] ∧
            _ignore_error defaultConfig docC4 .missingParameter = false ∧
            perNameNoqa docC4 .missingParameter "b" = false
        then 1 else 0) ∧
    ((_check_parameters defaultConfig docC4 fnC4).countP
        (fun f => f.kind == ErrorKind.excessParameter && f.name == some "b")
      = if "b" ∈ docC4.argumentItems.getD [] ∧
            "b" ∉ fnC4.argumentNames ∧
            _ignore_error defaultConfig docC4 .excessParameter = false ∧
            perNameNoqa docC4 .excessParameter "b" = false
        then 1 else 0) ∧
    ((∀ x, x ∈ fnC4.argumentNames ↔ x ∈ docC4.argumentItems.getD []) →
      _check_parameters defaultConfig docC4 fnC4 = []) :=
  parameter_presence_check_counts defaultConfig docC4 fnC4 "b"

/-- The declared (in-code) type paired with an argument name, positionally:
the second component of the first `zip(argument_names, argument_types)`
entry carrying that name. -/
def paramDeclaredType (fn : FunctionDescription) (n : String) :
    Option (Option String) :=
  ((fn.argumentNames.zip fn.argumentTypes).find? (fun p => p.1 == n)).map
    (fun p => p.2)

/-- With an empty type column, `ptmCore` emits nothing. -/
theorem ptmCore_nil_right (doc : BaseDocstring) (ln : Nat)
    (names : List String) : ptmCore doc ln names [] = [] := by
  simp [ptmCore]

/-- The findings the `ptmCore` loop body emits for one argument. -/
def ptmHead (doc : BaseDocstring) (ln : Nat) (nm : String)
    (t : Option String) : List Finding :=
  match t, docArgType doc nm with
  | some e, some a =>
    if e = a ∨ perNameNoqa doc .parameterTypeMismatch nm = true then []
    else
      [mkFinding .parameterTypeMismatch ln (some nm) (some e) (some a)
        (orDefault (doc.valueLines "ident" nm)
          (doc.sectionLines "arguments-section"))]
  | _, _ => []

/-- One unfolding step of `ptmCore`. -/
theorem ptmCore_cons (doc : BaseDocstring) (ln : Nat) (nm : String)
    (ns : List String) (t : Option String) (ts : List (Option String)) :
    ptmCore doc ln (nm :: ns) (t :: ts)
      = ptmHead doc ln nm t ++ ptmCore doc ln ns ts := by
  cases t with
  | none => simp [ptmCore, ptmHead, docArgTypesOf]
  | some e =>
    cases ha : docArgType doc nm with
    | none => simp [ptmCore, ptmHead, docArgTypesOf, ha]
    | some a =>
      by_cases hif : e = a ∨ perNameNoqa doc .parameterTypeMismatch nm = true
      · simp [ptmCore, ptmHead, docArgTypesOf, ha, hif]
      · simp [ptmCore, ptmHead, docArgTypesOf, ha, hif]

/-- Characterisation of the one-argument emission. -/
theorem mem_ptmHead (doc : BaseDocstring) (ln : Nat) (nm : String)
    (t : Option String) (f : Finding) (h : f ∈ ptmHead doc ln nm t) :
    ∃ e a, t = some e ∧ docArgType doc nm = some a ∧
      ¬(e = a ∨ perNameNoqa doc .parameterTypeMismatch nm = true) ∧
      f = mkFinding .parameterTypeMismatch ln (some nm) (some e) (some a)
        (orDefault (doc.valueLines "ident" nm)
          (doc.sectionLines "arguments-section")) := by
  cases t with
  | none => simp [ptmHead] at h
  | some e =>
    cases ha : docArgType doc nm with
    | none => simp [ptmHead, ha] at h
    | some a =>
      simp only [ptmHead, ha] at h
      split at h
      · simp at h
      · next hif =>
        rcases List.mem_singleton.mp h with rfl
        exact ⟨e, a, rfl, rfl, hif, rfl⟩

/-- Every `ptmCore` finding is named after one of the argument names. -/
theorem ptmCore_name_mem (doc : BaseDocstring) (ln : Nat) :
    ∀ (names : List String) (types : List (Option String)) (f : Finding),
      f ∈ ptmCore doc ln names types → ∃ nm ∈ names, f.name = some nm := by
  intro names
  induction names with
  | nil => intro types f hf; simp [ptmCore] at hf
  | cons nm ns ih =>
    intro types f hf
    cases types with
    | nil => rw [ptmCore_nil_right] at hf; simp at hf
    | cons t ts =>
      rw [ptmCore_cons, List.mem_append] at hf
      rcases hf with hf | hf
      · obtain ⟨e, a, _, _, _, rfl⟩ := mem_ptmHead doc ln nm t f hf
        exact ⟨nm, List.mem_cons_self nm ns, rfl⟩
      · obtain ⟨m, hm, hname⟩ := ih ts f hf
        exact ⟨m, List.mem_cons_of_mem nm hm, hname⟩

end Darglint

namespace Darglint

/-- The per-triple finding count of the parameter-type-mismatch loop: for
duplicate-free argument names, exactly one finding carries
`(name, expected, actual) = (n, e, a)` when the code declares type `e` for
`n`, the documentation declares `a`, the two differ and `n` has no per-name
suppression entry; zero findings otherwise. -/
theorem ptmCore_countP (doc : BaseDocstring) (ln : Nat) :
    ∀ (names : List String) (types : List (Option String)),
      names.Nodup → ∀ (n e a : String),
      (ptmCore doc ln names types).countP
          (fun f => f.name == some n && f.expected == some e
            && f.actual == some a)
        = if (((names.zip types).find? (fun p => p.1 == n)).map
                (fun p => p.2)) = some (some e) ∧
              docArgType doc n = some a ∧ e ≠ a ∧
              perNameNoqa doc .parameterTypeMismatch n = false
          then 1 else 0 := by
  intro names
  induction names with
  | nil =>
    intro types _ n e a
    simp [ptmCore]
  | cons nm ns ih =>
    intro types hnd n e a
    obtain ⟨hnin, hnsnd⟩ := List.nodup_cons.mp hnd
    cases types with
    | nil =>
      rw [ptmCore_nil_right]
      simp
    | cons t ts =>
      rw [ptmCore_cons, List.countP_append, List.zip_cons_cons]
      by_cases hnm : nm = n
      · subst hnm
        rw [List.find?_cons_of_pos _ (by simp)]
        have tail0 : (ptmCore doc ln ns ts).countP
            (fun f => f.name == some nm && f.expected == some e
              && f.actual == some a) = 0 := by
          apply List.countP_eq_zero.mpr
          intro f hf hp
          obtain ⟨m, hm, hname⟩ := ptmCore_name_mem doc ln ns ts f hf
          simp only [Bool.and_eq_true, beq_iff_eq] at hp
          rw [hname] at hp
          obtain ⟨⟨h1, _⟩, _⟩ := hp
          rw [Option.some_inj] at h1
          exact hnin (h1 ▸ hm)
        rw [tail0, Nat.add_zero]
        cases t with
        | none => simp [ptmHead]
        | some e0 =>
          cases ha : docArgType doc nm with
          | none => simp [ptmHead, ha]
          | some a0 =>
            by_cases hif : e0 = a0 ∨
                perNameNoqa doc .parameterTypeMismatch nm = true
            · have hl : ptmHead doc ln nm (some e0) = [] := by
                simp [ptmHead, ha, hif]
              rw [hl]
              simp only [List.countP_nil]
              split
              · next hcond =>
                exfalso
                obtain ⟨h1, h2, h3, h4⟩ := hcond
                have he : e0 = e := by simpa using h1
                have ha2 : a0 = a := by simpa using h2
                rcases hif with hea | hq
                · exact h3 (he ▸ ha2 ▸ hea)
                · rw [h4] at hq
                  cases hq
              · rfl
            · have hl : ptmHead doc ln nm (some e0)
                  = [mkFinding .parameterTypeMismatch ln (some nm) (some e0)
                      (some a0)
                      (orDefault (doc.valueLines "ident" nm)
                        (doc.sectionLines "arguments-section"))] := by
                simp [ptmHead, ha, hif]
              rw [hl]
              push_neg at hif
              obtain ⟨hea, hq⟩ := hif
              have hqf : perNameNoqa doc .parameterTypeMismatch nm = false :=
                by simpa using hq
              split
              · next hcond =>
                obtain ⟨h1, h2, _, _⟩ := hcond
                have he : e0 = e := by simpa using h1
                have ha2 : a0 = a := by simpa using h2
                subst he
                subst ha2
                simp [List.countP_cons]
              · next hcond =>
                by_cases he : e0 = e
                · by_cases ha2 : a0 = a
                  · exfalso
                    apply hcond
                    refine ⟨by simp [he], by rw [ha2], ?_, hqf⟩
                    intro hcontra
                    exact hea (by rw [he, ha2, hcontra])
                  · simp [List.countP_cons, ha2]
                · simp [List.countP_cons, he]
      · rw [List.find?_cons_of_neg _ (by simp [hnm])]
        have head0 : (ptmHead doc ln nm t).countP
            (fun f => f.name == some n && f.expected == some e
              && f.actual == some a) = 0 := by
          apply List.countP_eq_zero.mpr
          intro f hf hp
          obtain ⟨e0, a0, _, _, _, rfl⟩ := mem_ptmHead doc ln nm t f hf
          simp only [Bool.and_eq_true, beq_iff_eq, mkFinding_name,
            Option.some_inj] at hp
          exact hnm hp.1.1
        rw [head0, Nat.zero_add]
        exact ih ts hnsnd n e a

/-- Claim C5: the parameter type mismatch check emits findings only of its
kind, and — for duplicate-free parameter names and its kind not fully
suppressed — exactly one finding per parameter whose declared and
documented types are both present and differ, with `expected` the type
declared in code and `actual` the documented type, bypassing names with a
per-name suppression entry; pairs with either type absent are skipped. -/
theorem parameter_type_mismatch_check (cfg : Configuration)
    (doc : BaseDocstring) (fn : FunctionDescription)
    (hnd : fn.argumentNames.Nodup)
    (hig : _ignore_error cfg doc .parameterTypeMismatch = false) :
    (∀ f ∈ _check_parameter_types cfg doc fn,
        f.kind = .parameterTypeMismatch) ∧
    ∀ n e a,
      ((_check_parameter_types cfg doc fn).countP
          (fun f => f.name == some n && f.expected == some e
            && f.actual == some a))
        = if paramDeclaredType fn n = some (some e) ∧
              docArgType doc n = some a ∧ e ≠ a ∧
              perNameNoqa doc .parameterTypeMismatch n = false
          then 1 else 0 := by
  constructor
  · intro f hf
    exact (mem_check_parameter_types cfg doc fn f hf).1
  · intro n e a
    have hr : _check_parameter_types cfg doc fn
        = ptmCore doc fn.lineno fn.argumentNames fn.argumentTypes := by
      simp [_check_parameter_types, hig]
    rw [hr]
    exact ptmCore_countP doc fn.lineno fn.argumentNames fn.argumentTypes
      hnd n e a

/-- View for the claim C5 scenario: `x` documented as `str`. -/
def docW5 : BaseDocstring :=
  { emptyDoc with
    argumentItems := some ["x"],
    argumentTypes := some [some "str"] }

/-- Unit for the claim C5 scenario: `x` declared `int` in code. -/
def fnW5 : FunctionDescription :=
  { emptyFn with
    argumentNames := ["x"],
    argumentTypes := [some "int"],
    docstring := some (okSource docW5) }

/-- Witness for claim C5 at the scenario from the claim. -/
theorem parameter_type_mismatch_check_witness :
    fnW5.argumentNames.Nodup ∧
      _ignore_error defaultConfig docW5 .parameterTypeMismatch = false ∧
      ((∀ f ∈ _check_parameter_types defaultConfig docW5 fnW5,
          f.kind = .parameterTypeMismatch) ∧
        ∀ n e a,
          ((_check_parameter_types defaultConfig docW5 fnW5).countP
              (fun f => f.name == some n && f.expected == some e
                && f.actual == some a))
            = if paramDeclaredType fnW5 n = some (some e) ∧
                  docArgType docW5 n = some a ∧ e ≠ a ∧
                  perNameNoqa docW5 .parameterTypeMismatch n = false
              then 1 else 0) :=
  ⟨by decide, rfl,
    parameter_type_mismatch_check defaultConfig docW5 fnW5 (by decide) rfl⟩

end Darglint

namespace Darglint

/-- View for the claim C6 scenario: Returns section present, no Yields. -/
def docC6 : BaseDocstring := { emptyDoc with hasReturnsSection := true }

/-- Unit for the claim C6 scenario: yields but does not return. -/
def fnC6 : FunctionDescription :=
  { emptyFn with hasYield := true, docstring := some (okSource docC6) }

/-- Claim C6: return and yield presence checks agree-silently, flag a
missing section when only the code-side flag is set (unless suppressed),
flag an excess section when only the doc-side flag is set (unless
suppressed); in the yield/return conflict scenario the two checks emit one
ExcessReturn and one MissingYield. -/
theorem return_yield_presence_checks (cfg : Configuration)
    (doc : BaseDocstring) (fn : FunctionDescription) :
    (fn.hasReturn = doc.hasReturnsSection → _check_return cfg doc fn = []) ∧
    (fn.hasReturn = true → doc.hasReturnsSection = false →
      _ignore_error cfg doc .missingReturn = false →
      _check_return cfg doc fn
        = [mkFinding .missingReturn fn.lineno none none none none]) ∧
    (fn.hasReturn = true → doc.hasReturnsSection = false →
      _ignore_error cfg doc .missingReturn = true →
      _check_return cfg doc fn = []) ∧
    (fn.hasReturn = false → doc.hasReturnsSection = true →
      _ignore_error cfg doc .excessReturn = false →
      _check_return cfg doc fn
        = [mkFinding .excessReturn fn.lineno none none none
            (doc.sectionLines "returns-section")]) ∧
    (fn.hasReturn = false → doc.hasReturnsSection = true →
      _ignore_error cfg doc .excessReturn = true →
      _check_return cfg doc fn = []) ∧
    (fn.hasYield = doc.hasYieldsSection → _check_yield cfg doc fn = []) ∧
    (fn.hasYield = true → doc.hasYieldsSection = false →
      _ignore_error cfg doc .missingYield = false →
      _check_yield cfg doc fn
        = [mkFinding .missingYield fn.lineno none none none none]) ∧
    (fn.hasYield = true → doc.hasYieldsSection = false →
      _ignore_error cfg doc .missingYield = true →
      _check_yield cfg doc fn = []) ∧
    (fn.hasYield = false → doc.hasYieldsSection = true →
      _ignore_error cfg doc .excessYield = false →
      _check_yield cfg doc fn
        = [mkFinding .excessYield fn.lineno none none none
            (doc.sectionLines "yields-section")]) ∧
    (fn.hasYield = false → doc.hasYieldsSection = true →
      _ignore_error cfg doc .excessYield = true →
      _check_yield cfg doc fn = []) ∧
    ((_check_return defaultConfig docC6 fnC6
        ++ _check_yield defaultConfig docC6 fnC6).map (fun f => f.kind)
      = [.excessReturn, .missingYield]) := by
  refine ⟨?_, ?_, ?_, ?_, ?_, ?_, ?_, ?_, ?_, ?_, by decide⟩
  · intro h
    unfold _check_return
    rw [h]
    cases doc.hasReturnsSection <;> simp
  · intro h1 h2 h3
    simp [_check_return, h1, h2, h3]
  · intro h1 h2 h3
    simp [_check_return, h1, h2, h3]
  · intro h1 h2 h3
    simp [_check_return, h1, h2, h3]
  · intro h1 h2 h3
    simp [_check_return, h1, h2, h3]
  · intro h
    unfold _check_yield
    rw [h]
    cases doc.hasYieldsSection <;> simp
  · intro h1 h2 h3
    simp [_check_yield, h1, h2, h3]
  · intro h1 h2 h3
    simp [_check_yield, h1, h2, h3]
  · intro h1 h2 h3
    simp [_check_yield, h1, h2, h3]
  · intro h1 h2 h3
    simp [_check_yield, h1, h2, h3]

/-- Witness for claim C6 at the scenario's concrete input (extracting the
silent-agreement clause and the scenario clause). -/
theorem return_yield_presence_checks_witness :
    (fnC6.hasReturn = docC6.hasReturnsSection →
      _check_return defaultConfig docC6 fnC6 = []) ∧
    ((_check_return defaultConfig docC6 fnC6
        ++ _check_yield defaultConfig docC6 fnC6).map (fun f => f.kind)
      = [.excessReturn, .missingYield]) :=
  ⟨(return_yield_presence_checks defaultConfig docC6 fnC6).1,
    (return_yield_presence_checks defaultConfig docC6 fnC6).2.2.2.2.2.2.2.2.2.2⟩

/-- The function `effectiveReturnType` yields a type exactly for a single non-empty
entry. -/
theorem effectiveReturnType_eq_some (r : DocReturnType) (dt : String) :
    effectiveReturnType r = some dt ↔ r = .single dt ∧ dt ≠ "" := by
  cases r with
  | noType => simp [effectiveReturnType]
  | listOf ts => simp [effectiveReturnType]
  | single t =>
    by_cases h : t = ""
    · subst h
      simp only [effectiveReturnType, if_pos rfl]
      constructor
      · intro hx
        cases hx
      · rintro ⟨h1, h2⟩
        rw [DocReturnType.single.injEq] at h1
        exact absurd h1.symm h2
    · simp only [effectiveReturnType, if_neg h, Option.some_inj,
        DocReturnType.single.injEq]
      constructor
      · rintro rfl
        exact ⟨rfl, h⟩
      · rintro ⟨h1, _⟩
        exact h1

/-- Claim C7: the return type mismatch check emits a finding exactly when
the code declares a return type, the documentation's returns entry is a
single non-empty type, and the two differ; a list entry suppresses the
comparison; at most one finding, always of kind ReturnTypeMismatch, is
emitted. -/
theorem return_type_mismatch_check (cfg : Configuration)
    (doc : BaseDocstring) (fn : FunctionDescription)
    (hig : _ignore_error cfg doc .returnTypeMismatch = false) :
    ((_check_return_type cfg doc fn ≠ []) ↔
      (∃ ft dt, fn.returnType = some ft ∧ doc.returnsTypes = .single dt ∧
        dt ≠ "" ∧ ft ≠ dt)) ∧
    (∀ ts, doc.returnsTypes = .listOf ts →
      _check_return_type cfg doc fn = []) ∧
    (∀ f ∈ _check_return_type cfg doc fn, f.kind = .returnTypeMismatch) ∧
    (_check_return_type cfg doc fn).length ≤ 1 := by
  have hbody : _check_return_type cfg doc fn
      = match fn.returnType, effectiveReturnType doc.returnsTypes with
        | some ft, some dt =>
          if ft ≠ dt then
            [mkFinding .returnTypeMismatch fn.lineno none (some ft) (some dt)
              (doc.sectionLines "returns-section")]
          else []
        | _, _ => [] := by
    simp [_check_return_type, hig]
  refine ⟨?_, ?_, ?_, ?_⟩
  · rw [hbody]
    constructor
    · intro hne
      cases hft : fn.returnType with
      | none => rw [hft] at hne; simp at hne
      | some ft =>
        cases het : effectiveReturnType doc.returnsTypes with
        | none => rw [hft, het] at hne; simp at hne
        | some dt =>
          rw [hft, het] at hne
          by_cases hfd : ft = dt
          · subst hfd
            simp at hne
          · obtain ⟨hrt, hdt⟩ := (effectiveReturnType_eq_some _ _).mp het
            exact ⟨ft, dt, rfl, hrt, hdt, hfd⟩
    · rintro ⟨ft, dt, hft, hrt, hdt, hfd⟩
      have het : effectiveReturnType doc.returnsTypes = some dt :=
        (effectiveReturnType_eq_some _ _).mpr ⟨hrt, hdt⟩
      rw [hft, het]
      simp [hfd]
  · intro ts hts
    rw [hbody, hts]
    cases fn.returnType <;> simp [effectiveReturnType]
  · intro f hf
    rw [hbody] at hf
    split at hf
    · split at hf
      · rcases List.mem_singleton.mp hf with rfl
        rfl
      · simp at hf
    · simp at hf
  · rw [hbody]
    split
    · split <;> simp
    · simp

/-- View for the claim C7 witness: single documented return type `str`. -/
def docW7 : BaseDocstring := { emptyDoc with returnsTypes := .single "str" }

/-- Unit for the claim C7 witness: declared return type `int`. -/
def fnW7 : FunctionDescription :=
  { emptyFn with
    returnType := some "int",
    docstring := some (okSource docW7) }

/-- Witness for claim C7 at a concrete input. -/
theorem return_type_mismatch_check_witness :
    _ignore_error defaultConfig docW7 .returnTypeMismatch = false ∧
      (((_check_return_type defaultConfig docW7 fnW7 ≠ []) ↔
        (∃ ft dt, fnW7.returnType = some ft ∧
          docW7.returnsTypes = .single dt ∧ dt ≠ "" ∧ ft ≠ dt)) ∧
      (∀ ts, docW7.returnsTypes = .listOf ts →
        _check_return_type defaultConfig docW7 fnW7 = []) ∧
      (∀ f ∈ _check_return_type defaultConfig docW7 fnW7,
        f.kind = .returnTypeMismatch) ∧
      (_check_return_type defaultConfig docW7 fnW7).length ≤ 1) :=
  ⟨rfl, return_type_mismatch_check defaultConfig docW7 fnW7 rfl⟩

end Darglint

namespace Darglint

/-- Unit at line 10 producing one MissingParameter finding. -/
def fnA8 : FunctionDescription :=
  { emptyFn with
    lineno := 10,
    argumentNames := ["x"],
    argumentTypes := [none],
    docstring := some (okSource emptyDoc) }

/-- Unit at line 1 producing one MissingParameter finding. -/
def fnB8 : FunctionDescription :=
  { emptyFn with
    lineno := 1,
    argumentNames := ["x"],
    argumentTypes := [none],
    docstring := some (okSource emptyDoc) }

/-- Claim C8 evaluated on the code: `get_error_report` hands the error
collection to the renderer exactly as accumulated — `_sort` is never
invoked — so scheduling a unit at line 10 before a unit at line 1 yields a
report in discovery order `[10, 1]`, not the sorted order `[1, 10]` the
stable sort would produce. -/
theorem report_not_sorted_bug :
    (∀ (c : IntegrityChecker) (v : Nat) (fname : String)
        (tmpl : Option String),
      (get_error_report c v fname tmpl).errors = (runScheduled c).errors) ∧
    ((get_error_report (schedule (schedule (initChecker defaultConfig false)
        fnA8) fnB8) 2 "f" none).errors.map (fun f => f.functionLineno)
      = [10, 1]) ∧
    ((sortErrorsByLineno ((get_error_report (schedule (schedule
        (initChecker defaultConfig false) fnA8) fnB8) 2 "f"
          none).errors)).map (fun f => f.functionLineno)
      = [1, 10]) :=
  ⟨fun c v fname tmpl => rfl, by decide, by decide⟩

/-- Calling `schedule` on an undocumented unit is a no-op. -/
theorem schedule_none (c : IntegrityChecker) (fn : FunctionDescription)
    (hd : fn.docstring = none) : schedule c fn = c := by
  simp [schedule, hd]

/-- Calling `schedule` on a documented unit only appends to the task queue. -/
theorem schedule_some (c : IntegrityChecker) (fn : FunctionDescription)
    (src : DocSource) (hd : fn.docstring = some src) :
    schedule c fn = ⟨c.errors, c.config, c.raise_errors,
      c.scheduled ++ [fn]⟩ := by
  simp [schedule, hd]

/-- Scheduling threads every checker field except `raise_errors` through
unchanged semantics: the resulting state differs from the `raise_errors :=
false` run only in that stored flag. -/
theorem foldl_schedule_fields (fns : List FunctionDescription) :
    ∀ (errors : List Finding) (cfg : Configuration) (re re' : Bool)
      (sch : List FunctionDescription),
    fns.foldl schedule ⟨errors, cfg, re, sch⟩
      = ⟨(fns.foldl schedule ⟨errors, cfg, re', sch⟩).errors,
         (fns.foldl schedule ⟨errors, cfg, re', sch⟩).config, re,
         (fns.foldl schedule ⟨errors, cfg, re', sch⟩).scheduled⟩ := by
  induction fns with
  | nil => intro errors cfg re re' sch; rfl
  | cons fn fns ih =>
    intro errors cfg re re' sch
    simp only [List.foldl_cons]
    cases hd : fn.docstring with
    | none =>
      rw [schedule_none _ fn hd, schedule_none _ fn hd]
      exact ih errors cfg re re' sch
    | some src =>
      rw [schedule_some _ fn src hd, schedule_some _ fn src hd]
      exact ih errors cfg re re' (sch ++ [fn])

/-- Unit at line 3 producing one MissingParameter finding. -/
def fnOk9 : FunctionDescription :=
  { emptyFn with
    lineno := 3,
    argumentNames := ["a"],
    argumentTypes := [none],
    docstring := some (okSource emptyDoc) }

/-- Unit whose docstring faults under both parsers. -/
def fnBad9 : FunctionDescription :=
  { emptyFn with
    docstring := some { googleView := .error (), sphinxView := .error () } }

/-- Claim C9 evaluated on the code: the stored `raise_errors` flag is never
read again, so the report is identical whether strict mode is on or off; a
parse fault stays inside its never-retrieved future, the faulting unit
contributes zero findings, and the sibling's finding is unaffected — even
with `raise_errors = true` nothing propagates out of report finalization. -/
theorem raise_errors_never_propagates_bug :
    (∀ (cfg : Configuration) (re : Bool) (fns : List FunctionDescription)
        (v : Nat) (fname : String) (tmpl : Option String),
      get_error_report (fns.foldl schedule (initChecker cfg re)) v fname
          tmpl
        = get_error_report (fns.foldl schedule (initChecker cfg false)) v
            fname tmpl) ∧
    ((get_error_report (schedule (schedule (initChecker defaultConfig true)
        fnOk9) fnBad9) 2 "f" none).errors
      = [mkFinding .missingParameter 3 (some "a") none none none]) := by
  constructor
  · intro cfg re fns v fname tmpl
    rw [show initChecker cfg re = ⟨[], cfg, re, []⟩ from rfl,
      foldl_schedule_fields fns [] cfg re false []]
    rfl
  · decide

/-- Claim C10: scheduling the same documented unit twice before
finalization appends its full finding list twice — no deduplication. -/
theorem double_schedule_duplicates_findings (cfg : Configuration)
    (re : Bool) (fn : FunctionDescription) (src : DocSource) (v : Nat)
    (fname : String) (tmpl : Option String)
    (hd : fn.docstring = some src) :
    (get_error_report (schedule (schedule (initChecker cfg re) fn) fn) v
        fname tmpl).errors
      = (get_error_report (schedule (initChecker cfg re) fn) v fname
          tmpl).errors
        ++ (get_error_report (schedule (initChecker cfg re) fn) v fname
            tmpl).errors := by
  have h1 : schedule (initChecker cfg re) fn = ⟨[], cfg, re, [fn]⟩ := by
    simp [schedule, initChecker, hd]
  have h2 : schedule (⟨[], cfg, re, [fn]⟩ : IntegrityChecker) fn
      = ⟨[], cfg, re, [fn, fn]⟩ := by
    simp [schedule, hd]
  rw [h1, h2]
  simp [get_error_report, runScheduled]

/-- Unit at line 2 producing two MissingParameter findings. -/
def fnW10 : FunctionDescription :=
  { emptyFn with
    lineno := 2,
    argumentNames := ["a", "b"],
    argumentTypes := [none, none],
    docstring := some (okSource emptyDoc) }

/-- Witness for claim C10 at a concrete input. -/
theorem double_schedule_duplicates_findings_witness :
    fnW10.docstring = some (okSource emptyDoc) ∧
      (get_error_report (schedule (schedule (initChecker defaultConfig
          false) fnW10) fnW10) 2 "f" none).errors
        = (get_error_report (schedule (initChecker defaultConfig false)
            fnW10) 2 "f" none).errors
          ++ (get_error_report (schedule (initChecker defaultConfig false)
              fnW10) 2 "f" none).errors :=
  ⟨rfl, double_schedule_duplicates_findings defaultConfig false fnW10
    (okSource emptyDoc) 2 "f" none rfl⟩

end Darglint
